import Mathlib

/-!
Verification of the llia-http client (a thin typed wrapper over the platform
fetch primitive) against its natural-language specification.

The TypeScript sources are shallowly embedded as follows.

* A JavaScript plain object used as a string-keyed record is embedded as an
  insertion-ordered association list `HeaderRec` with unique keys in all
  reachable states.  Property assignment `obj[k] = v` is `recSet` (update in
  place when the key exists, append otherwise); property read is `recLookup`.
* JSON-serialisable JavaScript values are embedded as `JsonValue`; `undefined`
  is represented by `Option.none` where the source distinguishes it.
  JSON numbers are modelled as integers (no claim involves fractional values).
* The native `Headers` object is modelled by the construction-pair list fed to
  it; `headersOfList` reproduces the platform append/combine semantics
  (names lowercased, duplicate names joined with a comma) and `headersIter`
  the platform iteration order (sorted by name), as specified by Fetch.
* The transport (`fetch`) is an oracle `Transport` mapping the url and the
  request configuration to an outcome: a rejection carrying the thrown value,
  or a response whose body is given together with the outcome of reading it
  as text and parsing it as JSON (the platform JSON parser is modelled by the
  response carrying the result of the parse).
* `try`/`catch` is embedded by an `Except` layer: `tryExecuteRequest` is the
  try-block, `executeRequest` its totalisation by the catch-all branch.
* The platform `Headers.set` validation (a `TypeError` on an invalid header
  name or value, thrown by `toHeadersObject` outside that try/catch) is
  embedded by the fallible conversion `headersSetE`/`toHeadersObjectE` and
  the fallible client methods (`getE`, `postE`, ...); the plain methods
  (`get`, `post`, ...) are their restriction to the valid-header domain.
-/

/-- JSON-serialisable JavaScript values.  Objects coming from `JSON.parse`
have unique keys (the platform parser keeps the last duplicate), so `.obj`
field lists are unique-keyed in all reachable states. -/
inductive JsonValue where
  | null : JsonValue
  | bool (b : Bool) : JsonValue
  | num (n : Int) : JsonValue
  | str (s : String) : JsonValue
  | arr (elems : List JsonValue) : JsonValue
  | obj (fields : List (String × JsonValue)) : JsonValue
deriving Repr

/-- JavaScript truthiness of a `JsonValue` (NaN does not arise: numbers are
modelled as integers). -/
def jsTruthy : JsonValue → Bool
  | .null => false
  | .bool b => b
  | .num n => n != 0
  | .str s => s != ""
  | .arr _ => true
  | .obj _ => true

/-- Property read `v[k]` on a parsed JSON value: a field of an object,
`undefined` (i.e. `none`) otherwise.  Reading a property of `JsonValue.null`
throws in JavaScript; callers of `jsGetField` handle that case separately. -/
def jsGetField : JsonValue → String → Option JsonValue
  | .obj fields, k => (fields.find? (fun p => p.1 == k)).map (fun p => p.2)
  | _, _ => none

/-- The JavaScript `a || b` operator on a possibly-undefined value. -/
def jsOr (a : Option JsonValue) (b : JsonValue) : JsonValue :=
  match a with
  | some v => if jsTruthy v then v else b
  | none => b

/-- The JavaScript `a || b` operator on a possibly-undefined string. -/
def jsStrOr (a : Option String) (b : String) : String :=
  match a with
  | some s => if s = "" then b else s
  | none => b

def hexDigit (n : Nat) : Char :=
  if n < 10 then Char.ofNat (48 + n) else Char.ofNat (87 + n)

def hex4 (n : Nat) : String :=
  String.mk [hexDigit (n / 4096 % 16), hexDigit (n / 256 % 16),
    hexDigit (n / 16 % 16), hexDigit (n % 16)]

/-- Escaping of one character inside a JSON string literal, after
`JSON.stringify`. -/
def escapeJsonChar (c : Char) : String :=
  if c = '"' then "\\\""
  else if c = '\\' then "\\\\"
  else if c = '\n' then "\\n"
  else if c = '\r' then "\\r"
  else if c = '\t' then "\\t"
  else if c = '\x08' then "\\b"
  else if c = '\x0c' then "\\f"
  else if c.toNat < 32 then "\\u" ++ hex4 c.toNat
  else String.singleton c

def escapeJsonString (s : String) : String :=
  "\"" ++ String.join (s.toList.map escapeJsonChar) ++ "\""

mutual

/-- The platform `JSON.stringify` on JSON-serialisable values (compact form,
no indentation). -/
def jsonStringify : JsonValue → String
  | .null => "null"
  | .bool b => if b then "true" else "false"
  | .num n => toString n
  | .str s => escapeJsonString s
  | .arr xs => "[" ++ jsonStringifyArr xs ++ "]"
  | .obj fs => "\x7b" ++ jsonStringifyObj fs ++ "\x7d"

def jsonStringifyArr : List JsonValue → String
  | [] => ""
  | [x] => jsonStringify x
  | x :: y :: t => jsonStringify x ++ "," ++ jsonStringifyArr (y :: t)

def jsonStringifyObj : List (String × JsonValue) → String
  | [] => ""
  | [(k, v)] => escapeJsonString k ++ ":" ++ jsonStringify v
  | (k, v) :: q :: t =>
      escapeJsonString k ++ ":" ++ jsonStringify v ++ "," ++ jsonStringifyObj (q :: t)

end

/-- A JavaScript string-keyed record (`Record<string, string>`), as an
insertion-ordered association list; unique keys in all reachable states. -/
abbrev HeaderRec := List (String × String)

/-- JavaScript property assignment `rec[k] = v`: update in place when the key
exists, append otherwise. -/
def recSet : HeaderRec → String → String → HeaderRec
  | [], k, v => [(k, v)]
  | p :: t, k, v => if p.1 = k then (k, v) :: t else p :: recSet t k v

/-- JavaScript property read `rec[k]`, `undefined` encoded as `none`. -/
def recLookup : HeaderRec → String → Option String
  | [], _ => none
  | p :: t, k => if p.1 = k then some p.2 else recLookup t k

/-- Value of the last entry carrying a given name in an ordered pair list. -/
def lastLookup : List (String × String) → String → Option String
  | [], _ => none
  | p :: t, k =>
      match lastLookup t k with
      | some v => some v
      | none => if p.1 = k then some p.2 else none

/-- ASCII lowercasing of a header name, as the platform `Headers` machinery
performs it (byte-lowercase; `Char.toLower` only affects ASCII letters). -/
def lowerStr (s : String) : String :=
  String.mk (s.data.map Char.toLower)

/-- The platform `Headers.append` (used by the `Headers` constructor):
lowercases the name and joins a duplicate name's values with a comma. -/
def headersAppend (h : HeaderRec) (k v : String) : HeaderRec :=
  let k' := lowerStr k
  match recLookup h k' with
  | some old => recSet h k' (old ++ ", " ++ v)
  | none => h ++ [(k', v)]

/-- Entry list of a native `Headers` object built from construction pairs,
before iteration ordering. -/
def headersOfList (l : List (String × String)) : HeaderRec :=
  l.foldl (fun h p => headersAppend h p.1 p.2) []

/-- The platform `Headers.set`: lowercases the name, replaces in place or
appends. -/
def headersSet (h : HeaderRec) (k v : String) : HeaderRec :=
  recSet h (lowerStr k) v

/-- Iteration order of a native `Headers` object (`forEach`, `entries`):
sorted by header name, as the Fetch specification requires. -/
def headersIter (h : HeaderRec) : List (String × String) :=
  h.insertionSort (fun a b => a.1 ≤ b.1)

/-- The three shapes of the TypeScript `HeadersInit` union: a native
`Headers` object (given by its construction pairs), an ordered sequence of
name/value pairs, and a plain record. -/
inductive HeadersInitM where
  | headersObj (entries : List (String × String)) : HeadersInitM
  | pairs (entries : List (String × String)) : HeadersInitM
  | record (entries : HeaderRec) : HeadersInitM
deriving Repr

/-- Entry list over which `assembleHeaders` iterates an override input:
a native `Headers` is visited in its canonical (lowercased, sorted) form,
the other two shapes in their own order. -/
def overrideEntries : HeadersInitM → List (String × String)
  | .headersObj l => headersIter (headersOfList l)
  | .pairs l => l
  | .record r => r

/-- Embedding of `assembleHeaders` from `utils.ts`: copies the base record,
then writes every override entry into the copy (`forEach` for a `Headers`
object, `for...of` for an array, `Object.assign` for a record). -/
def assembleHeaders (baseHeaders : HeaderRec) (additionalHeaders : Option HeadersInitM) :
    HeaderRec :=
  let combined := baseHeaders
  match additionalHeaders with
  | none => combined
  | some (.headersObj l) =>
      (headersIter (headersOfList l)).foldl (fun c p => recSet c p.1 p.2) combined
  | some (.pairs l) => l.foldl (fun c p => recSet c p.1 p.2) combined
  | some (.record r) => r.foldl (fun c p => recSet c p.1 p.2) combined

/-- Embedding of `toHeadersObject` from `utils.ts`: a fresh `Headers` object
populated by `set` over the record entries in insertion order; the result is
given by its entry list. -/
def toHeadersObject (headerDict : HeaderRec) : HeaderRec :=
  headerDict.foldl (fun h p => headersSet h p.1 p.2) []

/-- Values thrown by platform primitives, classified the way
`parseErrorFromResponse` inspects them: a `SyntaxError`, some other `Error`
instance (carrying its message), or a non-`Error` value. -/
inductive ThrownError where
  | synErr (msg : String) : ThrownError
  | errObj (msg : String) : ThrownError
  | nonError : ThrownError
deriving Repr, DecidableEq

/-- Outcome of reading a response body: the body text together with the
platform JSON parse result of that text (`none` when parsing throws a
`SyntaxError`), or a thrown error while reading. -/
inductive BodyOutcome where
  | text (raw : String) (parsed : Option JsonValue) : BodyOutcome
  | readError (e : ThrownError) : BodyOutcome
deriving Repr

/-- A received HTTP response: status, status text, the construction pairs of
its `Headers` object, and the body-read outcome. -/
structure TransportResponse where
  status : Nat
  statusText : String
  headers : List (String × String)
  body : BodyOutcome
deriving Repr

/-- The platform `response.ok`: status in the inclusive range 200–299. -/
def responseOk (r : TransportResponse) : Bool :=
  decide (200 ≤ r.status) && decide (r.status ≤ 299)

/-- Outcome of one `fetch` invocation: a rejection carrying the thrown value,
or a response. -/
inductive TransportOutcome where
  | failure (e : ThrownError) : TransportOutcome
  | response (r : TransportResponse) : TransportOutcome
deriving Repr

/-- Embedding of the `ErrorResponse` interface of `types.ts`.  `message` and
`name` hold the runtime values assigned by the executor (always strings on
the designed paths). -/
structure ErrorResponse where
  message : JsonValue
  statusCode : Option Nat
  name : JsonValue
deriving Repr

/-- Embedding of the `Response<T>` type of `types.ts` as the runtime object
shape: `data`, `error` and `headers` fields, absent values encoded `none`. -/
structure ResponseR where
  data : Option JsonValue
  error : Option ErrorResponse
  headers : Option HeaderRec
deriving Repr

/-- Embedding of the `RequestInit` configuration built by the client: method,
the `Headers` object (by its entry list) and the optional serialised body. -/
structure RequestInitM where
  method : String
  headers : HeaderRec
  body : Option String
deriving Repr

/-- The network transport as an oracle: what one `fetch` of a given url with
a given configuration results in. -/
def Transport : Type := String → RequestInitM → TransportOutcome

/-- Embedding of `extractHeadersDict` from `utils.ts`: `forEach` over the
response's `Headers` object (canonical lowercased, sorted entries) writing
into a fresh record. -/
def extractHeadersDict (response : TransportResponse) : HeaderRec :=
  (headersIter (headersOfList response.headers)).foldl (fun d p => recSet d p.1 p.2) []

/-- Embedding of `parseErrorFromResponse` from `index.ts`.  The try-block
reads the body text, parses it as JSON and reads the `message` and `name`
fields with `||` fallbacks; the catch-block classifies the thrown value as
`SyntaxError`, other `Error`, or non-`Error`.  Reading a field of a body that
parses to JSON `null` throws a `TypeError`, landing in the `Error` branch;
the exact `TypeError` text is the host runtime message for a property read
on `null`. -/
def parseErrorFromResponse (response : TransportResponse) : ErrorResponse :=
  match response.body with
  | .readError e =>
      match e with
      | .synErr _ =>
          { message := .str "Internal server error. We are unable to process your request right now, please try again later."
            statusCode := some response.status
            name := .str "application_error" }
      | .errObj m =>
          { message := .str m
            statusCode := some response.status
            name := .str "application_error" }
      | .nonError =>
          { message := .str (jsStrOr (some response.statusText) "Request failed")
            statusCode := some response.status
            name := .str "application_error" }
  | .text _ none =>
      { message := .str "Internal server error. We are unable to process your request right now, please try again later."
        statusCode := some response.status
        name := .str "application_error" }
  | .text _ (some .null) =>
      { message := .str "Cannot read properties of null"
        statusCode := some response.status
        name := .str "application_error" }
  | .text _ (some parsed) =>
      { message := jsOr (jsGetField parsed "message") (.str "Unknown error occurred")
        statusCode := some response.status
        name := jsOr (jsGetField parsed "name") (.str "application_error") }

/-- The result the catch-all branch of `executeRequest` returns. -/
def unresolvedFailure : ResponseR :=
  { data := none
    error := some
      { name := .str "application_error"
        statusCode := none
        message := .str "Unable to fetch data. The request could not be resolved." }
    headers := none }

/-- The try-block of `executeRequest` from `index.ts`, with every throwing
step explicit in `Except`: `fetch` may reject; on a non-ok response the error
is classified (never throws); on an ok response `response.json()` may throw
(body-read failure, or a `SyntaxError` from the JSON parse). -/
def tryExecuteRequest (fullUrl : String) (fetchConfig : RequestInitM) (t : Transport) :
    Except ThrownError ResponseR :=
  match t fullUrl fetchConfig with
  | .failure e => .error e
  | .response response =>
      if !responseOk response then
        .ok { data := none
              error := some (parseErrorFromResponse response)
              headers := some (extractHeadersDict response) }
      else
        match response.body with
        | .readError e => .error e
        | .text _ none => .error (.synErr "Unexpected token in JSON")
        | .text _ (some data) =>
            .ok { data := some data
                  error := none
                  headers := some (extractHeadersDict response) }

/-- Embedding of `executeRequest` from `index.ts`: the try-block totalised by
the catch-all branch, which returns the generic unresolved-request failure. -/
def executeRequest (fullUrl : String) (fetchConfig : RequestInitM) (t : Transport) :
    ResponseR :=
  match tryExecuteRequest fullUrl fetchConfig t with
  | .ok r => r
  | .error _ => unresolvedFailure

/-- Embedding of the `ClientConfig` interface. -/
structure ClientConfigM where
  url : Option String
  headers : Option HeadersInitM

/-- Embedding of the `RequestConfig` interface. -/
structure RequestConfigM where
  headers : Option HeadersInitM

/-- State of a constructed `HttpClient`. -/
structure HttpClient where
  baseUrl : String
  defaultHeaders : HeaderRec

/-- Embedding of the `HttpClient` constructor: base url is `config?.url || ""`;
default headers start as the Content-Type seed and, when custom headers are
configured, `assembleHeaders` of the empty record with them is merged in via
`Object.assign`. -/
def mkClient (config : Option ClientConfigM) : HttpClient :=
  let baseUrl := jsStrOr (config.bind (fun c => c.url)) ""
  let seed : HeaderRec := [("Content-Type", "application/json")]
  match config.bind (fun c => c.headers) with
  | some h =>
      let customHeaders := assembleHeaders [] (some h)
      { baseUrl := baseUrl
        defaultHeaders := customHeaders.foldl (fun d p => recSet d p.1 p.2) seed }
  | none => { baseUrl := baseUrl, defaultHeaders := seed }

/-- Embedding of `HttpClient.buildUrl`: template concatenation of the base
url and the endpoint. -/
def HttpClient.buildUrl (c : HttpClient) (endpoint : String) : String :=
  c.baseUrl ++ endpoint

/-- Embedding of `HttpClient.buildRequestConfig`: merge the default headers
with the per-call override, convert to a `Headers` object, and attach the
JSON-serialised body exactly when the body argument is not `undefined`. -/
def HttpClient.buildRequestConfig (c : HttpClient) (method : String)
    (body : Option JsonValue) (options : Option RequestConfigM) : RequestInitM :=
  let headers := assembleHeaders c.defaultHeaders (options.bind (fun o => o.headers))
  { method := method
    headers := toHeadersObject headers
    body := body.map jsonStringify }

/-- Embedding of `HttpClient.get`. -/
def HttpClient.get (c : HttpClient) (endpoint : String) (options : Option RequestConfigM)
    (t : Transport) : ResponseR :=
  let url := c.buildUrl endpoint
  let requestConfig := c.buildRequestConfig "GET" none options
  executeRequest url requestConfig t

/-- Embedding of `HttpClient.post`. -/
def HttpClient.post (c : HttpClient) (endpoint : String) (body : Option JsonValue)
    (options : Option RequestConfigM) (t : Transport) : ResponseR :=
  let url := c.buildUrl endpoint
  let requestConfig := c.buildRequestConfig "POST" body options
  executeRequest url requestConfig t

/-- Embedding of `HttpClient.put`. -/
def HttpClient.put (c : HttpClient) (endpoint : String) (body : Option JsonValue)
    (options : Option RequestConfigM) (t : Transport) : ResponseR :=
  let url := c.buildUrl endpoint
  let requestConfig := c.buildRequestConfig "PUT" body options
  executeRequest url requestConfig t

/-- Embedding of `HttpClient.patch`. -/
def HttpClient.patch (c : HttpClient) (endpoint : String) (body : Option JsonValue)
    (options : Option RequestConfigM) (t : Transport) : ResponseR :=
  let url := c.buildUrl endpoint
  let requestConfig := c.buildRequestConfig "PATCH" body options
  executeRequest url requestConfig t

/-- Embedding of `HttpClient.delete`. -/
def HttpClient.delete (c : HttpClient) (endpoint : String) (body : Option JsonValue)
    (options : Option RequestConfigM) (t : Transport) : ResponseR :=
  let url := c.buildUrl endpoint
  let requestConfig := c.buildRequestConfig "DELETE" body options
  executeRequest url requestConfig t

/-- Spec-side predicate (from the claim wording): a result is uniform when
exactly one of `data` and `error` is populated. -/
def resultIsUniform (r : ResponseR) : Prop :=
  (r.error = none ∧ r.data ≠ none) ∨ (r.data = none ∧ r.error ≠ none)

/-- Character-list prefix test (the platform string prefix test). -/
def charsStart : List Char → List Char → Bool
  | [], _ => true
  | _ :: _, [] => false
  | a :: as, b :: bs => a == b && charsStart as bs

/-- Spec-side predicate (from the claim wording): an endpoint that is already
an absolute URL. -/
def isAbsoluteUrl (s : String) : Bool :=
  charsStart "http://".data s.data || charsStart "https://".data s.data

/-- Success-path body breakdown: an ok response whose body cannot be read or
whose text is not valid JSON makes `response.json()` throw. -/
def jsonBodyUnavailable (r : TransportResponse) : Bool :=
  match r.body with
  | .text _ (some _) => false
  | .text _ none => true
  | .readError _ => true

/-- Code points allowed in an HTTP header name (the token set of the field
grammar the platform validates against): ASCII alphanumerics and the symbols
with code points 33, 35, 36, 37, 38, 39, 42, 43, 45, 46, 94, 95, 96, 124
and 126. -/
def isTokenChar (c : Char) : Bool :=
  let n := c.toNat
  (decide (48 ≤ n) && decide (n ≤ 57)) ||
    (decide (65 ≤ n) && decide (n ≤ 90)) ||
    (decide (97 ≤ n) && decide (n ≤ 122)) ||
    n == 33 || n == 35 || n == 36 || n == 37 || n == 38 || n == 39 ||
    n == 42 || n == 43 || n == 45 || n == 46 || n == 94 || n == 95 ||
    n == 96 || n == 124 || n == 126

/-- A valid HTTP header name: non-empty and made of token code points; the
platform `Headers.set` throws a `TypeError` otherwise. -/
def validHeaderName (s : String) : Bool :=
  !s.data.isEmpty && s.data.all isTokenChar

/-- HTTP whitespace, which the platform strips from both ends of a header
value before validating it. -/
def isHttpWhitespace (c : Char) : Bool :=
  c == ' ' || c == '\t' || c == '\r' || c == '\n'

/-- Platform normalization of a header value: strip leading and trailing
HTTP whitespace. -/
def normalizeValue (s : String) : String :=
  String.mk (((s.data.dropWhile isHttpWhitespace).reverse.dropWhile isHttpWhitespace).reverse)

/-- A valid HTTP header value (after normalization): free of NUL, CR and LF;
the platform `Headers.set` throws a `TypeError` otherwise. -/
def validHeaderValue (s : String) : Bool :=
  (normalizeValue s).data.all fun c => c.toNat != 0 && c != '\r' && c != '\n'

/-- The platform `Headers.set` with its validation made explicit: the value
is normalized, and an invalid header name or value throws a `TypeError`.
`headersSet` above is the restriction of this operation to the valid domain;
the validating form matters on the public path, because `toHeadersObject`
runs outside the executor's try/catch. -/
def headersSetE (h : HeaderRec) (k v : String) : Except ThrownError HeaderRec :=
  if validHeaderName k && validHeaderValue v then
    .ok (recSet h (lowerStr k) (normalizeValue v))
  else
    .error (.errObj "invalid header name or value")

/-- The `for...of` loop of `toHeadersObject` under the platform validation:
the first invalid entry throws out of the loop. -/
def headersSetFold : List (String × String) → HeaderRec → Except ThrownError HeaderRec
  | [], h => .ok h
  | p :: t, h =>
      match headersSetE h p.1 p.2 with
      | .ok h2 => headersSetFold t h2
      | .error e => .error e

/-- Embedding of `toHeadersObject` from `utils.ts` over the full input
domain, with the platform `Headers.set` validation: a fresh `Headers` object
populated by `set`, which throws a `TypeError` on an invalid entry. -/
def toHeadersObjectE (headerDict : HeaderRec) : Except ThrownError HeaderRec :=
  headersSetFold headerDict []

/-- Embedding of `HttpClient.buildRequestConfig` over the full input domain:
the header conversion runs outside the executor's try/catch, so its throw
propagates as the `.error` case. -/
def HttpClient.buildRequestConfigE (c : HttpClient) (method : String)
    (body : Option JsonValue) (options : Option RequestConfigM) :
    Except ThrownError RequestInitM :=
  let headers := assembleHeaders c.defaultHeaders (options.bind (fun o => o.headers))
  match toHeadersObjectE headers with
  | .ok hobj => .ok { method := method, headers := hobj, body := body.map jsonStringify }
  | .error e => .error e

/-- Embedding of `HttpClient.get` over the full input domain: an exception
thrown while building the request configuration crosses the public boundary
as the `.error` case. -/
def HttpClient.getE (c : HttpClient) (endpoint : String)
    (options : Option RequestConfigM) (t : Transport) : Except ThrownError ResponseR :=
  let url := c.buildUrl endpoint
  match c.buildRequestConfigE "GET" none options with
  | .ok requestConfig => .ok (executeRequest url requestConfig t)
  | .error e => .error e

/-- Embedding of `HttpClient.post` over the full input domain. -/
def HttpClient.postE (c : HttpClient) (endpoint : String) (body : Option JsonValue)
    (options : Option RequestConfigM) (t : Transport) : Except ThrownError ResponseR :=
  let url := c.buildUrl endpoint
  match c.buildRequestConfigE "POST" body options with
  | .ok requestConfig => .ok (executeRequest url requestConfig t)
  | .error e => .error e

/-- Embedding of `HttpClient.put` over the full input domain. -/
def HttpClient.putE (c : HttpClient) (endpoint : String) (body : Option JsonValue)
    (options : Option RequestConfigM) (t : Transport) : Except ThrownError ResponseR :=
  let url := c.buildUrl endpoint
  match c.buildRequestConfigE "PUT" body options with
  | .ok requestConfig => .ok (executeRequest url requestConfig t)
  | .error e => .error e

/-- Embedding of `HttpClient.patch` over the full input domain. -/
def HttpClient.patchE (c : HttpClient) (endpoint : String) (body : Option JsonValue)
    (options : Option RequestConfigM) (t : Transport) : Except ThrownError ResponseR :=
  let url := c.buildUrl endpoint
  match c.buildRequestConfigE "PATCH" body options with
  | .ok requestConfig => .ok (executeRequest url requestConfig t)
  | .error e => .error e

/-- Embedding of `HttpClient.delete` over the full input domain. -/
def HttpClient.deleteE (c : HttpClient) (endpoint : String) (body : Option JsonValue)
    (options : Option RequestConfigM) (t : Transport) : Except ThrownError ResponseR :=
  let url := c.buildUrl endpoint
  match c.buildRequestConfigE "DELETE" body options with
  | .ok requestConfig => .ok (executeRequest url requestConfig t)
  | .error e => .error e

/-- Looking a key up after a JavaScript property assignment: the written key
now maps to the written value, every other key is untouched. -/
theorem recLookup_recSet (r : HeaderRec) (k v k' : String) :
    recLookup (recSet r k v) k' = if k' = k then some v else recLookup r k' := by
  induction r with
  | nil =>
    by_cases h : k' = k
    · simp [recSet, recLookup, h]
    · simp only [recSet, recLookup]
      rw [if_neg (fun hh : k = k' => h hh.symm), if_neg h]
  | cons p t ih =>
    simp only [recSet]
    by_cases hp : p.1 = k
    · rw [if_pos hp]
      by_cases h : k' = k
      · simp only [recLookup]
        rw [if_pos h.symm, if_pos h]
      · simp only [recLookup]
        rw [if_neg (fun hh : k = k' => h hh.symm), if_neg h,
          if_neg (fun hh : p.1 = k' => h (hh.symm.trans hp))]
    · rw [if_neg hp]
      simp only [recLookup]
      rw [ih]
      by_cases hq : p.1 = k'
      · rw [if_pos hq, if_neg (fun hh : k' = k => hp (hq.trans hh)), if_pos hq]
      · rw [if_neg hq, if_neg hq]
/-- Folding JavaScript property assignments over an ordered entry list:
a key written by the list ends at its last written value, a key the list
never writes keeps its value in the initial record. -/
theorem recLookup_foldl (l : List (String × String)) (init : HeaderRec) (k : String) :
    recLookup (l.foldl (fun c p => recSet c p.1 p.2) init) k =
      match lastLookup l k with
      | some v => some v
      | none => recLookup init k := by
  induction l generalizing init with
  | nil => simp [lastLookup]
  | cons p t ih =>
    simp only [List.foldl_cons, lastLookup]
    rw [ih]
    cases hl : lastLookup t k with
    | some v => rfl
    | none =>
      simp only [recLookup_recSet]
      by_cases hp : p.1 = k
      · rw [if_pos hp.symm, if_pos hp]
      · rw [if_neg (fun hh : k = p.1 => hp hh.symm), if_neg hp]

/-- A record read misses exactly the keys the record does not carry. -/
theorem recLookup_eq_none_iff (r : HeaderRec) (k : String) :
    recLookup r k = none ↔ k ∉ r.map Prod.fst := by
  induction r with
  | nil => simp [recLookup]
  | cons p t ih =>
    simp only [recLookup, List.map_cons, List.mem_cons]
    by_cases hp : p.1 = k
    · rw [if_pos hp]
      constructor
      · intro hh
        exact Option.noConfusion hh
      · intro hm
        exact absurd (Or.inl hp.symm) hm
    · rw [if_neg hp, ih]
      constructor
      · intro hm hmem
        rcases hmem with h1 | h2
        · exact hp h1.symm
        · exact hm h2
      · intro hm h2
        exact hm (Or.inr h2)

/-- Record reads are invariant under permutation when keys are unique. -/
theorem recLookup_perm {l l' : List (String × String)} (h : l.Perm l')
    (nd : (l.map Prod.fst).Nodup) (k : String) : recLookup l k = recLookup l' k := by
  induction h with
  | nil => rfl
  | cons p h ih =>
    simp only [List.map_cons, List.nodup_cons] at nd
    simp only [recLookup]
    by_cases hp : p.1 = k
    · rw [if_pos hp, if_pos hp]
    · rw [if_neg hp, if_neg hp, ih nd.2]
  | swap a b t =>
    simp only [List.map_cons, List.nodup_cons, List.mem_cons] at nd
    have hba : ¬b.1 = a.1 := fun hh => nd.1 (Or.inl hh)
    simp only [recLookup]
    by_cases hb : b.1 = k
    · have ha : ¬a.1 = k := fun hh => hba (hb.trans hh.symm)
      rw [if_pos hb, if_neg ha, if_pos hb]
    · by_cases ha : a.1 = k
      · rw [if_neg hb, if_pos ha, if_pos ha]
      · rw [if_neg hb, if_neg ha, if_neg ha, if_neg hb]
  | trans h1 h2 ih1 ih2 =>
    have nd2 := ((h1.map Prod.fst).nodup_iff).mp nd
    rw [ih1 nd, ih2 nd2]

/-- With unique keys the last write for a key is also the only one, so the
last-write view coincides with the record read. -/
theorem lastLookup_eq_recLookup {l : List (String × String)}
    (nd : (l.map Prod.fst).Nodup) (k : String) : lastLookup l k = recLookup l k := by
  induction l with
  | nil => rfl
  | cons p t ih =>
    simp only [List.map_cons, List.nodup_cons] at nd
    simp only [lastLookup, recLookup]
    rw [ih nd.2]
    cases hl : recLookup t k with
    | some v =>
      have hk : k ∈ t.map Prod.fst := by
        by_contra hmem
        rw [(recLookup_eq_none_iff t k).mpr hmem] at hl
        exact Option.noConfusion hl
      have hp : ¬p.1 = k := fun hh => nd.1 (by rw [hh]; exact hk)
      dsimp only
      rw [if_neg hp]
    | none => dsimp only

/-- The last-write view is invariant under permutation when keys are unique. -/
theorem lastLookup_perm {l l' : List (String × String)} (h : l.Perm l')
    (nd : (l.map Prod.fst).Nodup) (k : String) : lastLookup l k = lastLookup l' k := by
  have nd' := ((h.map Prod.fst).nodup_iff).mp nd
  rw [lastLookup_eq_recLookup nd, lastLookup_eq_recLookup nd', recLookup_perm h nd]
/-- Auxiliary: building a `Headers` object from pairs whose names are already
lowercase and mutually distinct, starting from an accumulated record whose
keys are disjoint from the remaining names, just appends the pairs. -/
theorem headersOfList_aux (l : List (String × String)) (acc : HeaderRec)
    (hlow : ∀ p ∈ l, lowerStr p.1 = p.1) (nd : (l.map Prod.fst).Nodup)
    (hdis : ∀ p ∈ l, p.1 ∉ acc.map Prod.fst) :
    l.foldl (fun h p => headersAppend h p.1 p.2) acc = acc ++ l := by
  induction l generalizing acc with
  | nil => simp
  | cons p t ih =>
    simp only [List.map_cons, List.nodup_cons] at nd
    simp only [List.foldl_cons]
    have hp : headersAppend acc p.1 p.2 = acc ++ [p] := by
      unfold headersAppend
      dsimp only
      rw [hlow p (List.mem_cons_self p t),
        (recLookup_eq_none_iff acc p.1).mpr (hdis p (List.mem_cons_self p t))]
    rw [hp, ih (acc ++ [p])
      (fun q hq => hlow q (List.mem_cons_of_mem p hq))
      nd.2
      (fun q hq => by
        simp only [List.map_append, List.mem_append, List.map_cons, List.map_nil,
          List.mem_singleton]
        intro hmem
        rcases hmem with h1 | h2
        · exact hdis q (List.mem_cons_of_mem p hq) h1
        · exact nd.1 (by rw [← h2]; exact List.mem_map_of_mem Prod.fst hq))]
    simp

/-- A `Headers` object built from pairs whose names are already lowercase and
mutually distinct holds exactly those pairs. -/
theorem headersOfList_eq_self (l : List (String × String))
    (hlow : ∀ p ∈ l, lowerStr p.1 = p.1) (nd : (l.map Prod.fst).Nodup) :
    headersOfList l = l := by
  unfold headersOfList
  rw [headersOfList_aux l [] hlow nd (fun p _ => by simp)]
  simp

/-- The merge iterates the override input as its entry list, whichever of the
three shapes it arrives in. -/
theorem assembleHeaders_eq_foldl (base : HeaderRec) (o : HeadersInitM) :
    assembleHeaders base (some o) =
      (overrideEntries o).foldl (fun c p => recSet c p.1 p.2) base := by
  cases o <;> rfl

/-- Iterating a `Headers` object permutes its entry list. -/
theorem headersIter_perm (h : HeaderRec) : (headersIter h).Perm h :=
  List.perm_insertionSort _ h
/-- Claim C5, counterexample.  The claim states that an override entry takes
precedence over a base entry whose name matches up to case-insensitive
comparison.  With base entry `X-A: 1` and record-shaped override `x-a: 2`
(names identical up to case), the merged mapping still carries the base
entry `X-A` with its old value `1`: the override did not replace it; the
merge added a second, differently-cased key instead. -/
theorem claimC5_counterexample :
    lowerStr "x-a" = lowerStr "X-A" ∧
    recLookup (assembleHeaders [("X-A", "1")] (some (.record [("x-a", "2")]))) "X-A" =
      some "1" ∧
    recLookup (assembleHeaders [("X-A", "1")] (some (.record [("x-a", "2")]))) "x-a" =
      some "2" := by
  refine ⟨?_, ?_, ?_⟩ <;> decide

/-- Claim C5 (amended): the merged mapping gives an override entry precedence
over a base entry only under exact (case-sensitive) name equality on the
iterated override entries (for a native `Headers` override those names are
the lowercased ones); a key the override entries never write keeps its base
value untouched.  Case-insensitive collapsing happens only later, when the
merged record is converted to a `Headers` object for transmission. -/
theorem claimC5_holds (base : HeaderRec) (o : HeadersInitM) (k : String) :
    recLookup (assembleHeaders base (some o)) k =
      match lastLookup (overrideEntries o) k with
      | some w => some w
      | none => recLookup base k := by
  rw [assembleHeaders_eq_foldl, recLookup_foldl]

/-- Claim C9: when an override arrives as an ordered pair sequence in which
a name occurs several times, the merged mapping carries the value of the
last occurrence (last write wins within the shape). -/
theorem claimC9_holds (base : HeaderRec) (l : List (String × String)) (k v : String)
    (h : lastLookup l k = some v) :
    recLookup (assembleHeaders base (some (.pairs l))) k = some v := by
  rw [assembleHeaders_eq_foldl, recLookup_foldl]
  simp [overrideEntries, h]

/-- Claim C9, witness: the duplicate-named pair sequence
`[a: 1, a: 2]` merges to `a: 2`. -/
theorem claimC9_witness :
    lastLookup [("a", "1"), ("a", "2")] "a" = some "2" ∧
    recLookup (assembleHeaders [] (some (.pairs [("a", "1"), ("a", "2")]))) "a" = some "2" :=
  ⟨by decide, claimC9_holds [] [("a", "1"), ("a", "2")] "a" "2" (by decide)⟩

/-- Claim C4, counterexample.  The claim states that override inputs of the
three shapes denoting the same logical name/value set merge identically.
The single logical entry `X-A: 2` given as a native `Headers` object is
reported with its name lowercased, while the pair-sequence shape keeps the
given case: the two merged mappings differ (`X-A` is absent from one and
present in the other). -/
theorem claimC4_counterexample :
    lowerStr "X-A" = "x-a" ∧
    recLookup (assembleHeaders [] (some (.headersObj [("X-A", "2")]))) "X-A" = none ∧
    recLookup (assembleHeaders [] (some (.pairs [("X-A", "2")]))) "X-A" = some "2" ∧
    recLookup (assembleHeaders [] (some (.headersObj [("X-A", "2")]))) "x-a" = some "2" := by
  refine ⟨?_, ?_, ?_, ?_⟩ <;> decide

/-- Claim C4 (amended): override inputs of the three shapes carrying the same
duplicate-free entry set merge to the same mapping (pointwise equal reads)
provided the entry names are already lowercase; without that proviso the
native `Headers` shape lowercases names while the other two shapes keep the
given case, and the merged mappings can differ in key case. -/
theorem claimC4_holds (base : HeaderRec) (L Lh Lp Lr : List (String × String))
    (hlow : ∀ p ∈ L, lowerStr p.1 = p.1) (nd : (L.map Prod.fst).Nodup)
    (hh : Lh.Perm L) (hp : Lp.Perm L) (hr : Lr.Perm L) (k : String) :
    recLookup (assembleHeaders base (some (.headersObj Lh))) k =
        recLookup (assembleHeaders base (some (.pairs Lp))) k ∧
      recLookup (assembleHeaders base (some (.record Lr))) k =
        recLookup (assembleHeaders base (some (.pairs Lp))) k := by
  have hlowh : ∀ p ∈ Lh, lowerStr p.1 = p.1 := fun p hm => hlow p (hh.subset hm)
  have ndh : (Lh.map Prod.fst).Nodup := ((hh.map Prod.fst).nodup_iff).mpr nd
  have ndr : (Lr.map Prod.fst).Nodup := ((hr.map Prod.fst).nodup_iff).mpr nd
  constructor
  · rw [assembleHeaders_eq_foldl, recLookup_foldl, assembleHeaders_eq_foldl, recLookup_foldl]
    simp only [overrideEntries]
    rw [headersOfList_eq_self Lh hlowh ndh]
    have hperm : (headersIter Lh).Perm Lp := (headersIter_perm Lh).trans (hh.trans hp.symm)
    have ndih : ((headersIter Lh).map Prod.fst).Nodup :=
      (((headersIter_perm Lh).map Prod.fst).nodup_iff).mpr ndh
    rw [lastLookup_perm hperm ndih k]
  · rw [assembleHeaders_eq_foldl, recLookup_foldl, assembleHeaders_eq_foldl, recLookup_foldl]
    simp only [overrideEntries]
    rw [lastLookup_perm (hr.trans hp.symm) ndr k]

/-- Claim C4, witness: the lowercase duplicate-free entry set
`x-a: 2, a: 1` merges identically in all three shapes, over a non-trivial
base and with the pair shape given in a different order. -/
theorem claimC4_witness :
    recLookup (assembleHeaders [("X-A", "1")]
        (some (.headersObj [("x-a", "2"), ("a", "1")]))) "x-a" =
      recLookup (assembleHeaders [("X-A", "1")]
        (some (.pairs [("a", "1"), ("x-a", "2")]))) "x-a" ∧
    recLookup (assembleHeaders [("X-A", "1")]
        (some (.record [("x-a", "2"), ("a", "1")]))) "x-a" =
      recLookup (assembleHeaders [("X-A", "1")]
        (some (.pairs [("a", "1"), ("x-a", "2")]))) "x-a" :=
  claimC4_holds [("X-A", "1")] [("x-a", "2"), ("a", "1")] [("x-a", "2"), ("a", "1")]
    [("a", "1"), ("x-a", "2")] [("x-a", "2"), ("a", "1")]
    (by decide) (by decide) (List.Perm.refl _)
    (List.Perm.swap ("x-a", "2") ("a", "1") []) (List.Perm.refl _) "x-a"
/-- Claim C6, counterexample.  The claim states that an endpoint that is
already an absolute URL is used as-is.  With a configured base URL the code
still concatenates: the absolute endpoint is not used as-is. -/
theorem claimC6_counterexample :
    isAbsoluteUrl "http://b.com/x" = true ∧
    (mkClient (some ⟨some "http://a.com", none⟩)).buildUrl "http://b.com/x" =
      "http://a.comhttp://b.com/x" ∧
    "http://a.comhttp://b.com/x" ≠ "http://b.com/x" := by
  refine ⟨?_, ?_, ?_⟩ <;> decide

/-- Claim C6 (amended): the target URL is always the verbatim concatenation
of the configured base URL (empty when unset or set to the empty string) and
the endpoint, with no slash normalization and no special case for absolute
endpoints; an absolute endpoint is therefore used as-is exactly when no base
URL is configured. -/
theorem claimC6_holds (cfg : ClientConfigM) (endpoint : String) :
    (mkClient (some cfg)).buildUrl endpoint = jsStrOr cfg.url "" ++ endpoint ∧
    (mkClient none).buildUrl endpoint = endpoint ∧
    ((cfg.url = none ∨ cfg.url = some "") →
      (mkClient (some cfg)).buildUrl endpoint = endpoint) := by
  refine ⟨?_, rfl, ?_⟩
  · cases hc : cfg.headers <;> simp [mkClient, HttpClient.buildUrl, hc]
  · intro h
    have h1 : jsStrOr cfg.url "" = "" := by
      rcases h with h | h <;> simp [jsStrOr, h]
    have h2 : ("" : String) ++ endpoint = endpoint := by
      simp
    cases hc : cfg.headers <;> simp [mkClient, HttpClient.buildUrl, hc, h1, h2]

/-- Claim C6, witness: with no configured base URL an absolute endpoint comes
through unchanged. -/
theorem claimC6_witness :
    (mkClient (some ⟨none, none⟩)).buildUrl "http://b.com/x" = "http://b.com/x" :=
  (claimC6_holds ⟨none, none⟩ "http://b.com/x").2.2 (Or.inl rfl)

/-- Claim C10: the request configuration carries a serialised body exactly
when the body argument is not `undefined`; a `null` body is serialised to
the JSON text for null, an `undefined` (omitted) body yields no body. -/
theorem claimC10_holds (c : HttpClient) (method : String) (body : Option JsonValue)
    (options : Option RequestConfigM) :
    (c.buildRequestConfig method body options).body = body.map jsonStringify ∧
    ((c.buildRequestConfig method body options).body = none ↔ body = none) ∧
    (c.buildRequestConfig method (some .null) options).body = some "null" ∧
    (c.buildRequestConfig method none options).body = none := by
  refine ⟨rfl, ?_, rfl, rfl⟩
  simp [HttpClient.buildRequestConfig]

/-- Claim C10, witness: a `null` body is sent as the four-character JSON text
for null. -/
theorem claimC10_witness :
    ((mkClient none).buildRequestConfig "POST" (some .null) none).body = some "null" :=
  (claimC10_holds (mkClient none) "POST" (some .null) none).2.2.1
/-- Every executor result populates exactly one of `data` and `error`. -/
theorem executeRequest_uniform (url : String) (cfg : RequestInitM) (t : Transport) :
    resultIsUniform (executeRequest url cfg t) := by
  unfold executeRequest tryExecuteRequest resultIsUniform
  cases ht : t url cfg with
  | failure e => simp [unresolvedFailure]
  | response r =>
    cases hok : responseOk r with
    | false => simp [hok]
    | true =>
      cases hb : r.body with
      | text raw parsed => cases parsed <;> simp [hok, hb, unresolvedFailure]
      | readError e => simp [hok, hb, unresolvedFailure]

/-- Whatever the try-block of the executor throws, the catch-all branch turns
it into the generic unresolved-request failure. -/
theorem executeRequest_of_error (url : String) (cfg : RequestInitM) (t : Transport)
    (e : ThrownError) (h : tryExecuteRequest url cfg t = .error e) :
    executeRequest url cfg t = unresolvedFailure := by
  unfold executeRequest
  rw [h]

/-- With every entry a valid name/value pair, the validated header-object
conversion completes without throwing. -/
theorem headersSetFold_ok (d : List (String × String)) (acc : HeaderRec)
    (hv : ∀ p ∈ d, validHeaderName p.1 = true ∧ validHeaderValue p.2 = true) :
    ∃ h, headersSetFold d acc = .ok h := by
  induction d generalizing acc with
  | nil => exact ⟨acc, rfl⟩
  | cons p t ih =>
    have hp := hv p (List.mem_cons_self p t)
    simp only [headersSetFold, headersSetE, hp.1, hp.2, Bool.and_self, if_true]
    exact ih _ (fun q hq => hv q (List.mem_cons_of_mem p hq))

/-- When the validated header conversion succeeds, building the request
configuration returns it together with the method and serialised body. -/
theorem buildRequestConfigE_ok (c : HttpClient) (method : String) (body : Option JsonValue)
    (options : Option RequestConfigM) (h : HeaderRec)
    (hh : toHeadersObjectE
        (assembleHeaders c.defaultHeaders (options.bind (fun o => o.headers))) = .ok h) :
    c.buildRequestConfigE method body options =
      .ok { method := method, headers := h, body := body.map jsonStringify } := by
  unfold HttpClient.buildRequestConfigE
  dsimp only
  rw [hh]

/-- Claim C3, counterexample.  The claim states that a call never raises an
exception across the public boundary for any endpoint, body and options.
With an override header whose name contains a space, the native `Headers.set`
invoked by `buildRequestConfig` throws a `TypeError` outside the executor's
try/catch, and the exception reaches the caller instead of a `Result`. -/
theorem claimC3_counterexample :
    validHeaderName "Bad Name" = false ∧
    (mkClient none).getE "/x" (some ⟨some (.record [("Bad Name", "v")])⟩)
        (fun _ _ => .failure .nonError) =
      .error (.errObj "invalid header name or value") :=
  ⟨rfl, rfl⟩

/-- Claim C3 (amended): provided every merged header entry is a valid
name/value pair (the body already ranges over JSON-serialisable values), no
client call raises an exception across the public boundary: each of the five
methods returns a `Result` that populates exactly one of `data` and `error`,
every designed failure being confined to the executor's try/catch.  Without
that proviso the header-conversion `TypeError` thrown in
`buildRequestConfig` escapes to the caller, as the counterexample shows. -/
theorem claimC3_holds (c : HttpClient) (endpoint : String) (body : Option JsonValue)
    (options : Option RequestConfigM) (t : Transport)
    (hv : ∀ p ∈ assembleHeaders c.defaultHeaders (options.bind (fun o => o.headers)),
      validHeaderName p.1 = true ∧ validHeaderValue p.2 = true) :
    (∃ r, c.getE endpoint options t = .ok r ∧ resultIsUniform r) ∧
    (∃ r, c.postE endpoint body options t = .ok r ∧ resultIsUniform r) ∧
    (∃ r, c.putE endpoint body options t = .ok r ∧ resultIsUniform r) ∧
    (∃ r, c.patchE endpoint body options t = .ok r ∧ resultIsUniform r) ∧
    (∃ r, c.deleteE endpoint body options t = .ok r ∧ resultIsUniform r) := by
  obtain ⟨h, hh⟩ := headersSetFold_ok _ [] hv
  have hc : toHeadersObjectE
      (assembleHeaders c.defaultHeaders (options.bind (fun o => o.headers))) = .ok h := hh
  refine ⟨?_, ?_, ?_, ?_, ?_⟩
  · refine ⟨executeRequest (c.buildUrl endpoint) ⟨"GET", h, none⟩ t, ?_,
      executeRequest_uniform _ _ _⟩
    unfold HttpClient.getE
    dsimp only
    rw [buildRequestConfigE_ok c "GET" none options h hc]
    rfl
  · refine ⟨executeRequest (c.buildUrl endpoint) ⟨"POST", h, body.map jsonStringify⟩ t, ?_,
      executeRequest_uniform _ _ _⟩
    unfold HttpClient.postE
    dsimp only
    rw [buildRequestConfigE_ok c "POST" body options h hc]
  · refine ⟨executeRequest (c.buildUrl endpoint) ⟨"PUT", h, body.map jsonStringify⟩ t, ?_,
      executeRequest_uniform _ _ _⟩
    unfold HttpClient.putE
    dsimp only
    rw [buildRequestConfigE_ok c "PUT" body options h hc]
  · refine ⟨executeRequest (c.buildUrl endpoint) ⟨"PATCH", h, body.map jsonStringify⟩ t, ?_,
      executeRequest_uniform _ _ _⟩
    unfold HttpClient.patchE
    dsimp only
    rw [buildRequestConfigE_ok c "PATCH" body options h hc]
  · refine ⟨executeRequest (c.buildUrl endpoint) ⟨"DELETE", h, body.map jsonStringify⟩ t, ?_,
      executeRequest_uniform _ _ _⟩
    unfold HttpClient.deleteE
    dsimp only
    rw [buildRequestConfigE_ok c "DELETE" body options h hc]

/-- Claim C3, witness: with the default (valid) merged headers, a GET against
a rejecting transport returns a uniform result without raising. -/
theorem claimC3_witness :
    ∃ r, (mkClient none).getE "/x" none (fun _ _ => .failure .nonError) = .ok r ∧
      resultIsUniform r :=
  (claimC3_holds (mkClient none) "/x" none none (fun _ _ => .failure .nonError)
    (by decide)).1

/-- Claim C7: when the transport invocation never completes, every client
method returns the Failure whose error carries name application_error, an
absent status code and the fixed generic unresolved-request message, and
whose headers field is absent. -/
theorem claimC7_holds (c : HttpClient) (endpoint : String) (body : Option JsonValue)
    (options : Option RequestConfigM) (t : Transport) (e : ThrownError)
    (ht : ∀ u fc, t u fc = .failure e) :
    c.get endpoint options t = unresolvedFailure ∧
    c.post endpoint body options t = unresolvedFailure ∧
    c.put endpoint body options t = unresolvedFailure ∧
    c.patch endpoint body options t = unresolvedFailure ∧
    c.delete endpoint body options t = unresolvedFailure := by
  have key : ∀ url cfg, executeRequest url cfg t = unresolvedFailure := by
    intro url cfg
    unfold executeRequest tryExecuteRequest
    rw [ht url cfg]
  exact ⟨key _ _, key _ _, key _ _, key _ _, key _ _⟩

/-- Claim C7, witness: a GET against an always-failing transport yields the
generic unresolved-request failure. -/
theorem claimC7_witness :
    (mkClient none).get "/test" none (fun _ _ => .failure .nonError) = unresolvedFailure :=
  (claimC7_holds (mkClient none) "/test" none none (fun _ _ => .failure .nonError) .nonError
    (fun _ _ => rfl)).1
/-- Claim C1, counterexample.  The claim states that a 2xx response whose
body is not valid JSON produces an unexpected error propagating uncaught,
rather than being converted into a Failure result.  At a concrete such input
the call returns normally, and the result is the generic Failure produced by
the executor's catch-all branch. -/
theorem claimC1_counterexample :
    (mkClient none).get "/success" none
        (fun _ _ => .response ⟨200, "OK", [], .text "not json" none⟩) = unresolvedFailure ∧
    unresolvedFailure.error.isSome = true ∧
    unresolvedFailure.headers = none :=
  ⟨rfl, rfl, rfl⟩

/-- Claim C1 (amended): a 2xx response whose body is not valid JSON does not
propagate to the caller; the parse failure thrown by the platform is caught
by the executor's catch-all branch, and every client method returns the
generic unresolved-request Failure (name application_error, absent status
code, absent headers). -/
theorem claimC1_holds (c : HttpClient) (endpoint : String) (body : Option JsonValue)
    (options : Option RequestConfigM) (t : Transport) (r : TransportResponse) (raw : String)
    (ht : ∀ u fc, t u fc = .response r) (hok : responseOk r = true)
    (hbody : r.body = .text raw none) :
    c.get endpoint options t = unresolvedFailure ∧
    c.post endpoint body options t = unresolvedFailure ∧
    c.put endpoint body options t = unresolvedFailure ∧
    c.patch endpoint body options t = unresolvedFailure ∧
    c.delete endpoint body options t = unresolvedFailure := by
  have key : ∀ url cfg, executeRequest url cfg t = unresolvedFailure := by
    intro url cfg
    unfold executeRequest tryExecuteRequest
    rw [ht url cfg]
    simp [hok, hbody]
  exact ⟨key _ _, key _ _, key _ _, key _ _, key _ _⟩

/-- Claim C1, witness: a POST seeing a 200 response with a non-JSON body
returns the generic failure. -/
theorem claimC1_witness :
    (mkClient none).post "/items" none none
        (fun _ _ => .response ⟨200, "OK", [("a", "b")], .text "<html>" none⟩) =
      unresolvedFailure :=
  (claimC1_holds (mkClient none) "/items" none none
    (fun _ _ => .response ⟨200, "OK", [("a", "b")], .text "<html>" none⟩)
    ⟨200, "OK", [("a", "b")], .text "<html>" none⟩ "<html>"
    (fun _ _ => rfl) rfl rfl).2.1

/-- Claim C2, counterexample.  The claim states that a Failure's headers
field is absent only when no HTTP response was received.  Here the transport
does deliver a response (status 200 with response headers present), yet the
result is a Failure whose headers field is absent, because the success-path
JSON parse failure lands in the catch-all branch. -/
theorem claimC2_counterexample :
    (fun _ _ => .response ⟨200, "OK", [("x-h", "v")], .text "plain" none⟩ : Transport)
        "http://s/x" ⟨"GET", [], none⟩ =
      .response ⟨200, "OK", [("x-h", "v")], .text "plain" none⟩ ∧
    (executeRequest "http://s/x" ⟨"GET", [], none⟩
        (fun _ _ => .response ⟨200, "OK", [("x-h", "v")], .text "plain" none⟩)).error.isSome =
      true ∧
    (executeRequest "http://s/x" ⟨"GET", [], none⟩
        (fun _ _ => .response ⟨200, "OK", [("x-h", "v")], .text "plain" none⟩)).headers =
      none :=
  ⟨rfl, rfl, rfl⟩

/-- Claim C2 (amended): a result is a Failure with an absent headers field
exactly when the catch-all branch produced it: either the transport call
itself failed, or the response was ok but its body could not be obtained as
JSON on the success path.  Failures classified from a non-2xx response always
carry the response's headers. -/
theorem claimC2_holds (url : String) (cfg : RequestInitM) (t : Transport) :
    ((executeRequest url cfg t).error.isSome = true ∧
        (executeRequest url cfg t).headers = none) ↔
      ((∃ e, t url cfg = .failure e) ∨
        (∃ r, t url cfg = .response r ∧ responseOk r = true ∧
          jsonBodyUnavailable r = true)) := by
  unfold executeRequest tryExecuteRequest
  cases ht : t url cfg with
  | failure e => simp [unresolvedFailure]
  | response r =>
    cases hok : responseOk r with
    | false => simp [hok]
    | true =>
      cases hb : r.body with
      | text raw parsed =>
        cases parsed <;> simp [hok, hb, jsonBodyUnavailable, unresolvedFailure]
      | readError e => simp [hok, hb, jsonBodyUnavailable, unresolvedFailure]

/-- Claim C2, witness: on a rejecting transport the result is a Failure with
absent headers. -/
theorem claimC2_witness :
    (executeRequest "http://s/y" ⟨"GET", [], none⟩
        (fun _ _ => .failure .nonError)).error.isSome = true ∧
    (executeRequest "http://s/y" ⟨"GET", [], none⟩
        (fun _ _ => .failure .nonError)).headers = none :=
  (claimC2_holds "http://s/y" ⟨"GET", [], none⟩ (fun _ _ => .failure .nonError)).mpr
    (Or.inl ⟨.nonError, rfl⟩)

/-- Claim C8, counterexample.  The claim states that for a non-2xx response
with a JSON body, the error message equals the parsed message field when that
field is present.  A present but empty message field is falsy in JavaScript,
so the code substitutes the generic fallback instead of the empty string. -/
theorem claimC8_counterexample :
    jsGetField (.obj [("message", .str ""), ("name", .str "api_failure")]) "message" =
      some (.str "") ∧
    (executeRequest "http://s/error" ⟨"GET", [], none⟩
        (fun _ _ => .response ⟨400, "Bad Request", [],
          .text "body" (some (.obj [("message", .str ""), ("name", .str "api_failure")]))⟩)).error =
      some ⟨.str "Unknown error occurred", some 400, .str "api_failure"⟩ ∧
    JsonValue.str "Unknown error occurred" ≠ JsonValue.str "" := by
  refine ⟨rfl, rfl, ?_⟩
  simp

/-- Claim C8 (amended): for a non-2xx response whose body text parses as
JSON other than null, the result is a Failure whose message is the parsed
message field when present and truthy (generic fallback otherwise, including
for a present but falsy field such as the empty string), whose name is the
parsed name field when present and truthy (application_error otherwise),
whose status code is the HTTP status, and which carries the response
headers.  A body parsing to JSON null instead makes the field access throw,
yielding the caught error's message. -/
theorem claimC8_holds (url : String) (cfg : RequestInitM) (t : Transport)
    (r : TransportResponse) (raw : String) (p : JsonValue)
    (ht : t url cfg = .response r) (hok : responseOk r = false)
    (hbody : r.body = .text raw (some p)) (hnn : p ≠ .null) :
    executeRequest url cfg t =
      { data := none
        error := some
          { message := jsOr (jsGetField p "message") (.str "Unknown error occurred")
            statusCode := some r.status
            name := jsOr (jsGetField p "name") (.str "application_error") }
        headers := some (extractHeadersDict r) } := by
  unfold executeRequest tryExecuteRequest
  rw [ht]
  simp only [hok]
  unfold parseErrorFromResponse
  rw [hbody]
  cases p with
  | null => exact absurd rfl hnn
  | bool b => rfl
  | num n => rfl
  | str s => rfl
  | arr xs => rfl
  | obj fs => rfl

/-- Claim C8, witness: the structured 400 error scenario from the
specification, with a truthy message and name. -/
theorem claimC8_witness :
    executeRequest "http://s/error" ⟨"GET", [], none⟩
        (fun _ _ => .response ⟨400, "Bad Request", [],
          .text "body" (some (.obj
            [("name", .str "api_failure"), ("message", .str "Something went wrong")]))⟩) =
      ⟨none, some ⟨.str "Something went wrong", some 400, .str "api_failure"⟩, some []⟩ :=
  claimC8_holds "http://s/error" ⟨"GET", [], none⟩
    (fun _ _ => .response ⟨400, "Bad Request", [],
      .text "body" (some (.obj
        [("name", .str "api_failure"), ("message", .str "Something went wrong")]))⟩)
    ⟨400, "Bad Request", [],
      .text "body" (some (.obj
        [("name", .str "api_failure"), ("message", .str "Something went wrong")]))⟩
    "body"
    (.obj [("name", .str "api_failure"), ("message", .str "Something went wrong")])
    rfl rfl rfl (by simp)
